import Mathlib

/-!
Shallow embedding of the `homeinfopoint` Home Assistant custom component
(`custom_components/homeinfopoint/`): the HTML parser (`parser.py`), the
login/fetch client (`api.py`), the sensor helpers (`sensor.py`) and the
coordinator's fetch contract (`coordinator.py`).

Python strings are modelled as Lean `String` / `List Char`; the ASCII
fragment of Python's case folding and whitespace classes is modelled
exactly (all inputs exercised by the development are ASCII).
-/

namespace HomeInfoPoint

/-! ## Python string primitives -/

/-- The Python `\s` whitespace class, ASCII fragment:
space, tab, newline, carriage return, vertical tab, form feed. -/
def isPyWs (c : Char) : Bool :=
  c = ' ' || c = '\t' || c = '\n' || c = '\r' || c = Char.ofNat 11 || c = Char.ofNat 12

/-- `re.sub(r"\s+", " ", s)`: collapse every maximal run of whitespace
to a single space. -/
def collapseWs : List Char → List Char
  | [] => []
  | [c] => if isPyWs c then [' '] else [c]
  | c :: d :: cs =>
    if isPyWs c then
      if isPyWs d then collapseWs (d :: cs) else ' ' :: collapseWs (d :: cs)
    else c :: collapseWs (d :: cs)

/-- Python `str.strip()` on a character list. -/
def pyStripList (cs : List Char) : List Char :=
  ((cs.dropWhile isPyWs).reverse.dropWhile isPyWs).reverse

/-- Python `str.strip()`. -/
def pyStrip (s : String) : String :=
  String.mk (pyStripList s.toList)

/-- `parser.py` `_norm`: `re.sub(r"\s+", " ", s or "").strip()`. -/
def _norm (s : String) : String :=
  String.mk (pyStripList (collapseWs s.toList))

/-- Python `str.split()` (split on whitespace runs, dropping empty pieces):
accumulator-based scanner. -/
def splitWsAux : List Char → List Char → List String
  | [], acc => if acc.isEmpty then [] else [String.mk acc.reverse]
  | c :: cs, acc =>
    if isPyWs c then
      if acc.isEmpty then splitWsAux cs []
      else String.mk acc.reverse :: splitWsAux cs []
    else splitWsAux cs (c :: acc)

/-- Python `str.split()`. -/
def pySplitWs (s : String) : List String :=
  splitWsAux s.toList []

/-- Python `str.lower()`, ASCII fragment (`A`–`Z` mapped to `a`–`z`). -/
def pyLower (s : String) : String :=
  String.mk (s.toList.map Char.toLower)

/-- `" ".join(words)` on a character-list level. -/
def joinSpace : List String → List Char
  | [] => []
  | [w] => w.toList
  | w :: ws => w.toList ++ ' ' :: joinSpace ws

/-! ## api.py: the login-form detector `LOGIN_FORM_RE`

```
LOGIN_FORM_RE = re.compile(
    r"(?:<form[^>]+action=[\"']?login\.php[\"']?[^>]*>)|(?:<input[^>]+type=[\"']?password[\"']?[^>]*>)",
    re.IGNORECASE | re.DOTALL)
```

Each alternative has the shape `<tag[^>]+attr=["']?value["']?[^>]*>`.
`re.search` is existence of a match at some start position; the matcher
below decides exactly that, with `re.IGNORECASE` modelled by ASCII
case-insensitive character comparison (the pattern is ASCII-only and
`re.DOTALL` is irrelevant: the pattern contains no `.` metacharacter). -/

/-- Case-insensitive character comparison (ASCII fragment of `re.IGNORECASE`). -/
def ciEq (a b : Char) : Bool :=
  a.toLower = b.toLower

/-- Match a literal pattern case-insensitively against a prefix of the
input, returning the remainder on success. -/
def matchLitCI : List Char → List Char → Option (List Char)
  | [], cs => some cs
  | _ :: _, [] => none
  | l :: ls, c :: cs => if ciEq l c then matchLitCI ls cs else none

/-- `["']?`: the possible remainders after the optional quote. -/
def optQuote : List Char → List (List Char)
  | [] => [[]]
  | c :: rest =>
    if c = '"' || c = Char.ofNat 39 then [c :: rest, rest] else [c :: rest]

/-- `[^>]*>` matches some prefix of `cs` iff `cs` contains a `>`. -/
def hasGt (cs : List Char) : Bool :=
  cs.any (fun c => c = '>')

/-- The remainders reachable by `[^>]+`: consume one or more characters,
none of which is `>`. -/
def nonGtTails : List Char → List (List Char)
  | [] => []
  | c :: cs => if c = '>' then [] else cs :: nonGtTails cs

/-- Tail of one regex alternative after `[^>]+`:
`attr` then `["']?` then `value` then `["']?` then `[^>]*>`. -/
def matchAttrTail (attr value : List Char) (cs : List Char) : Bool :=
  match matchLitCI attr cs with
  | none => false
  | some r1 =>
    (optQuote r1).any fun r2 =>
      match matchLitCI value r2 with
      | none => false
      | some r3 => (optQuote r3).any hasGt

/-- One regex alternative `<tag[^>]+attr=["']?value["']?[^>]*>`,
anchored at the start of the input. -/
def matchTagAt (tag attr value : List Char) (cs : List Char) : Bool :=
  match matchLitCI tag cs with
  | none => false
  | some r => (nonGtTails r).any (matchAttrTail attr value)

/-- The whole alternation of `LOGIN_FORM_RE`, anchored at the start. -/
def loginFormAt (cs : List Char) : Bool :=
  matchTagAt "<form".toList "action=".toList "login.php".toList cs ||
  matchTagAt "<input".toList "type=".toList "password".toList cs

/-- `LOGIN_FORM_RE.search`: a match starting at some position. -/
def loginFormSearch : List Char → Bool
  | [] => false
  | c :: cs => loginFormAt (c :: cs) || loginFormSearch cs

/-- api.py `HomeInfoPointClient._looks_like_login_form`. -/
def looks_like_login_form (html : String) : Bool :=
  loginFormSearch html.toList

/-- Search for the `<form ... action=login.php ...>` alternative alone. -/
def searchFormAction : List Char → Bool
  | [] => false
  | c :: cs =>
    matchTagAt "<form".toList "action=".toList "login.php".toList (c :: cs) ||
      searchFormAction cs

/-- Search for the `<input ... type=password ...>` alternative alone. -/
def searchPasswordInput : List Char → Bool
  | [] => false
  | c :: cs =>
    matchTagAt "<input".toList "type=".toList "password".toList (c :: cs) ||
      searchPasswordInput cs

/-- The body contains a form whose action targets `login.php`
(in the sense of the first alternative of `LOGIN_FORM_RE`). -/
def hasLoginFormAction (html : String) : Bool :=
  searchFormAction html.toList

/-- The body contains a password input field
(in the sense of the second alternative of `LOGIN_FORM_RE`). -/
def hasPasswordInput (html : String) : Bool :=
  searchPasswordInput html.toList

/-! ## parser.py: `subject_key` -/

/-- The fixed subject-name dictionary inside `subject_key`. -/
def SUBJECT_MAPPING : List (String × String) :=
  [("deutsch", "de"), ("mathematik", "ma"), ("englisch", "en"),
   ("biologie", "bio"), ("chemie", "ch"), ("physik", "ph"),
   ("geschichte", "ge"), ("erdkunde", "ek"), ("sport", "sp"),
   ("musik", "mu"), ("kunst", "ku"), ("informatik", "inf"),
   ("französisch", "fr"), ("latein", "la")]

/-- A character kept by `re.sub(r"[^a-z0-9]+", "", s)`. -/
def isSlugChar (c : Char) : Bool :=
  ('a' ≤ c && c ≤ 'z') || ('0' ≤ c && c ≤ '9')

/-- parser.py `subject_key`: lowercase the stripped heading, look it up in
the fixed dictionary, otherwise keep the first three alphanumeric
characters of the slug, defaulting to `"fach"` when that is empty
(Python `slug[:3] or "fach"`). `str.lower()` is modelled by ASCII
`String.toLower`; the dictionary keys are already lowercase. -/
def subject_key (subject : String) : String :=
  let s := pyLower (pyStrip subject)
  match SUBJECT_MAPPING.lookup s with
  | some k => k
  | none =>
    let slug := s.toList.filter isSlugChar
    if (slug.take 3).isEmpty then "fach" else String.mk (slug.take 3)

/-! ## sensor.py: grade-average helpers -/

/-- sensor.py `_norm`: `" ".join(str(s or "").split()).strip()`. -/
def sens_norm (s : String) : String :=
  String.mk (pyStripList (joinSpace (pySplitWs s)))

/-- sensor.py `_first_of`: the first key present in the record whose value
is neither `None` nor the empty string (parser records hold strings, so
only the empty string can be skipped). -/
def _first_of (d : List (String × String)) : List String → String
  | [] => ""
  | k :: ks =>
    match d.lookup k with
    | some v => if v ≠ "" then v else _first_of d ks
    | none => _first_of d ks

/-- sensor.py `_GRADE_INT_RE = re.compile(r"^[1-6]$")`: the string is a
single literal digit between 1 and 6. -/
def gradeIntMatch (s : String) : Bool :=
  match s.toList with
  | [c] => '1' ≤ c && c ≤ '6'
  | _ => false

/-- Python `int` on a matched single-digit string. -/
def digitVal (s : String) : Nat :=
  match s.toList with
  | [c] => c.toNat - 48
  | _ => 0

/-- sensor.py `_numeric_grades_1_to_6`: the `Zensur` values (looked up
case-variant-first via `_first_of`) that are literal digits 1–6, as
integers, in entry order. -/
def _numeric_grades_1_to_6 (entries : List (List (String × String))) : List Nat :=
  entries.filterMap fun e =>
    let s := sens_norm (_first_of e ["Zensur", "zensur"])
    if gradeIntMatch s then some (digitVal s) else none

/-- Python `round(x, 2)` (round half to even at two decimals), on exact
rationals. The source computes with binary floats; on the values proved
about below the quotient is exactly representable, so the two agree. -/
def pyRound2 (q : ℚ) : ℚ :=
  let x := q * 100
  let f : ℤ := Int.fdiv x.num (x.den : ℤ)
  let rem : ℤ := x.num - f * (x.den : ℤ)
  let n : ℤ :=
    if 2 * rem < (x.den : ℤ) then f
    else if (x.den : ℤ) < 2 * rem then f + 1
    else if f % 2 = 0 then f else f + 1
  (n : ℚ) / 100

/-- sensor.py `HIPSubjectGradesSensor.native_value`: `0` when no entry has
a literal 1–6 `Zensur`, otherwise the average rounded to two decimals. -/
def native_value (entries : List (List (String × String))) : ℚ :=
  let vals := _numeric_grades_1_to_6 entries
  if vals = [] then 0
  else pyRound2 ((vals.sum : ℚ) / (vals.length : ℚ))

/-- sensor.py `valid_count` attribute: `len(_numeric_grades_1_to_6(raw_entries))`. -/
def valid_count (entries : List (List (String × String))) : Nat :=
  (_numeric_grades_1_to_6 entries).length

/-! ## api.py: the login state machine

All HTTP traffic is modelled by a scripted trace of responses consumed in
request order (the client's requests are strictly sequential). `sleep`
delays are no-ops for the observable result; the retry schedules matter
only through their length, but are kept with their exact values. -/

/-- One scripted HTTP response. -/
structure HttpResp where
  status : Nat
  body : String
deriving Repr, DecidableEq

/-- The scripted responses still to be served, in request order. -/
abbrev Trace := List HttpResp

/-- Outcome of a client operation: a value, or one of the two exception
classes of api.py (`CannotConnect`, `InvalidAuth`); `outOfScript` marks a
run that issues more requests than the scenario scripted. -/
inductive ApiResult (α : Type) where
  | ok (a : α)
  | cannotConnect
  | invalidAuth
  | outOfScript
deriving Repr, DecidableEq

/-- Sequencing of client steps: exceptions propagate. -/
def ApiResult.andThen {α β : Type} : ApiResult α → (α → ApiResult β) → ApiResult β
  | .ok a, f => f a
  | .cannotConnect, _ => .cannotConnect
  | .invalidAuth, _ => .invalidAuth
  | .outOfScript, _ => .outOfScript

/-- Serve the next scripted response. -/
def takeResp : Trace → ApiResult (HttpResp × Trace)
  | [] => .outOfScript
  | r :: rs => .ok (r, rs)

/-- The status check `resp.status not in (200, 302)` used by both requests
of `_login_once` (negated). -/
def statusOk (n : Nat) : Bool :=
  n = 200 || n = 302

/-- api.py `RETRY_DELAYS_PRIMARY = [0.2, 0.6, 1.0]`. -/
def RETRY_DELAYS_PRIMARY : List ℚ := [2/10, 6/10, 1]

/-- api.py `RETRY_DELAYS_FALLBACK = [0.3, 0.8, 1.2, 2.0]`. -/
def RETRY_DELAYS_FALLBACK : List ℚ := [3/10, 8/10, 12/10, 2]

/-- api.py `_login_once`: GET the start page, then POST `login.php`;
each raises `CannotConnect` unless its status is 200 or 302. -/
def login_once (tr : Trace) : ApiResult Trace :=
  (takeResp tr).andThen fun (r1, tr1) =>
    if statusOk r1.status then
      (takeResp tr1).andThen fun (r2, tr2) =>
        if statusOk r2.status then .ok tr2 else .cannotConnect
    else .cannotConnect

/-- api.py `_fetch_after_login_once`: a single GET of `getdata.php`,
returning status and body. -/
def fetch_after_login_once (tr : Trace) : ApiResult ((Nat × String) × Trace) :=
  (takeResp tr).andThen fun (r, tr1) => .ok ((r.status, r.body), tr1)

/-- The retry loop of `_fetch_after_login_with_retries`:
`while status == 200 and self._looks_like_login_form(html) and attempt < len(delays)`.
The remaining `delays` list plays the role of `len(delays) - attempt`. -/
def retryLoop (delays : List ℚ) (status : Nat) (html : String) (tr : Trace) :
    ApiResult ((Nat × String) × Trace) :=
  match delays with
  | [] => .ok ((status, html), tr)
  | _d :: rest =>
    if status = 200 && looks_like_login_form html then
      (fetch_after_login_once tr).andThen fun (sh, tr1) =>
        retryLoop rest sh.1 sh.2 tr1
    else .ok ((status, html), tr)

/-- api.py `_fetch_after_login_with_retries`: first fetch, the retry loop,
then `CannotConnect` unless the final status is 200; the final body is
returned even if it still shows the login form. -/
def _fetch_after_login_with_retries (delays : List ℚ) (tr : Trace) :
    ApiResult (String × Trace) :=
  (fetch_after_login_once tr).andThen fun (sh, tr1) =>
    (retryLoop delays sh.1 sh.2 tr1).andThen fun (sh2, tr2) =>
      if sh2.1 ≠ 200 then .cannotConnect else .ok (sh2.2, tr2)

/-- api.py `async_login_and_fetch_html`: login, fetch with the primary
retry schedule, and return the body unless it still looks like the login
form; otherwise run one full fallback login with the longer schedule and
raise `InvalidAuth` if the final body still looks like the login form. -/
def async_login_and_fetch_html (tr : Trace) : ApiResult (String × Trace) :=
  (login_once tr).andThen fun tr1 =>
    (_fetch_after_login_with_retries RETRY_DELAYS_PRIMARY tr1).andThen fun (html, tr2) =>
      if ¬ looks_like_login_form html then .ok (html, tr2)
      else
        (login_once tr2).andThen fun tr3 =>
          (_fetch_after_login_with_retries RETRY_DELAYS_FALLBACK tr3).andThen fun (html2, tr4) =>
            if looks_like_login_form html2 then .invalidAuth
            else .ok (html2, tr4)

/-! ## coordinator.py / the authenticated fetch operation -/

/-- The error taxonomy of the authenticated fetch operation (spec §7):
data, session expiry, connectivity failure, credential failure. -/
inductive FetchDataResult where
  | data (html : String)
  | sessionExpired
  | cannotConnect
  | invalidAuth
deriving Repr, DecidableEq

/-- Modelled from the spec: `async_fetch_data_html`, the client method the
coordinator calls (coordinator.py line 33), is absent from api.py — only
its caller is in the repository. Spec §4.2: the operation issues one
cache-defeating GET to the data endpoint with the live session; if the
response body matches the login-form detector the session has silently
expired and a distinct "session expired" condition is reported, otherwise
the raw HTML body is returned; HTTP-level failures are connectivity
errors (§7). The single GET's response is the argument. -/
def async_fetch_data_html (resp : HttpResp) : FetchDataResult :=
  if ¬ statusOk resp.status then .cannotConnect
  else if looks_like_login_form resp.body then .sessionExpired
  else .data resp.body

/-! ## parser.py: DOM model

`parser.py` consumes a BeautifulSoup document. The third-party
HTML-to-tree step is the environment of this embedding; a parsed document
is a tree of element and text nodes, and the repository's own traversal
logic (`find_all`, sibling/parent hops, `get_text`) is modelled over that
tree. A document is the list of the soup's top-level nodes. -/

/-- A DOM node: a text node, or an element with tag, attributes and
children. -/
inductive Node where
  | text (s : String)
  | elem (tag : String) (attrs : List (String × String)) (children : List Node)
deriving Repr

/-- Children of a node (text nodes have none). -/
def Node.childrenOf : Node → List Node
  | .text _ => []
  | .elem _ _ cs => cs

mutual

/-- All text-node strings in a subtree, in document order
(BeautifulSoup `.strings`). -/
def nodeStrs : Node → List String
  | .text s => [s]
  | .elem _ _ cs => forestStrs cs

/-- All text-node strings in a forest, in document order. -/
def forestStrs : List Node → List String
  | [] => []
  | n :: ns => nodeStrs n ++ forestStrs ns

end

/-- Concatenation of UTF-8 strings on the character level. -/
def concatChars : List String → List Char
  | [] => []
  | s :: ss => s.toList ++ concatChars ss

/-- BeautifulSoup `get_text()` (empty separator). -/
def Node.getText (n : Node) : String :=
  String.mk (concatChars (nodeStrs n))

/-- BeautifulSoup `get_text(separator=" ")`. -/
def Node.getTextSp (n : Node) : String :=
  String.mk (joinSpace (nodeStrs n))

mutual

/-- Elements of a subtree satisfying a tag/attribute predicate, in
document order, the root element included (helper for `find_all`). -/
def collectElems (p : String → List (String × String) → Bool) : Node → List Node
  | .text _ => []
  | .elem t a cs =>
    (if p t a then [Node.elem t a cs] else []) ++ collectElemsF p cs

/-- Elements of a forest satisfying a predicate, in document order.
BeautifulSoup `find_all` over an element's children is
`collectElemsF p n.childrenOf` (the element itself is never a result). -/
def collectElemsF (p : String → List (String × String) → Bool) : List Node → List Node
  | [] => []
  | n :: ns => collectElems p n ++ collectElemsF p ns

end

/-- The HTML `class` attribute contains the given class name
(whitespace-separated word list, as CSS `.cls` selectors match). -/
def hasClass (attrs : List (String × String)) (cls : String) : Bool :=
  match attrs.lookup "class" with
  | some v => (pySplitWs v).contains cls
  | none => false

/-- The `id` attribute equals the given value. -/
def idIs (attrs : List (String × String)) (v : String) : Bool :=
  match attrs.lookup "id" with
  | some x => x = v
  | none => false

/-- parser.py `_table_rows`: all `tr` descendants of the table; a row is
kept when it has at least one `td`/`th` cell; each cell text is
`_norm(c.get_text(separator=" ").strip())`. -/
def _table_rows (table : Node) : List (List String) :=
  (collectElemsF (fun t _ => t = "tr") table.childrenOf).filterMap fun tr =>
    let cells := collectElemsF (fun t _ => t = "td" || t = "th") tr.childrenOf
    if cells.isEmpty then none
    else some (cells.map fun c => _norm (pyStrip (Node.getTextSp c)))

/-- Python dict assignment `entry[key] = val` on an insertion-ordered
association list: overwrite in place, else append. -/
def pyDictSet : List (String × String) → String → String → List (String × String)
  | [], k, v => [(k, v)]
  | (k0, v0) :: rest, k, v =>
    if k0 = k then (k, v) :: rest else (k0, v0) :: pyDictSet rest k v

/-- The loop of `_row_to_entry`: `for i, h in enumerate(headers)`. -/
def rowToEntryGo (values : List String) : Nat → List String → List (String × String) → List (String × String)
  | _, [], entry => entry
  | i, h :: hs, entry =>
    rowToEntryGo values (i + 1) hs (pyDictSet entry (_norm h) (_norm (values.getD i "")))

/-- parser.py `_row_to_entry`: one record per data row, keyed by the
normalized header texts; a missing cell contributes `""`, surplus cells
are never read. -/
def _row_to_entry (headers values : List String) : List (String × String) :=
  rowToEntryGo values 0 headers []

/-! ### Subject resolution (`_find_subject_for_table`) -/

/-- A table element together with its DOM context: the preceding siblings
(nearest first, text nodes included — each is one `previous_sibling`
hop) and the ancestor elements (nearest first, ending at the document
root). -/
structure TableCtx where
  node : Node
  leftRev : List Node
  ancestors : List Node
deriving Repr

mutual

/-- Table elements inside one node, each with its context
(`anc`: ancestors of the node, nearest first; `leftRev`: the node's
preceding siblings, nearest first). -/
def tablesInN (anc leftRev : List Node) : Node → List TableCtx
  | .text _ => []
  | .elem t a cs =>
    (if t = "table" then [⟨Node.elem t a cs, leftRev, anc⟩] else []) ++
      tablesInF (Node.elem t a cs :: anc) [] cs

/-- Table elements of a forest in document order, with contexts
(`soup.find_all("table")` plus the navigation data the subject search
needs). -/
def tablesInF (anc leftRev : List Node) : List Node → List TableCtx
  | [] => []
  | n :: ns => tablesInN anc leftRev n ++ tablesInF anc (n :: leftRev) ns

end

/-- The heading tags searched by `_find_subject_for_table`. -/
def HEADING_TAGS : List String := ["h1", "h2", "h3", "strong"]

/-- One iteration of the sibling loop of `_find_subject_for_table`:
a heading element with nonempty normalized text yields that text
(text nodes have `name = None` and never match). -/
def headingText? : Node → Option String
  | .text _ => none
  | .elem t a cs =>
    if HEADING_TAGS.contains t then
      let txt := _norm (Node.getText (.elem t a cs))
      if txt = "" then none else some txt
    else none

/-- The parent loop of `_find_subject_for_table`: per ancestor,
`cur.find(["h1","h2","h3","strong"])`; only the first heading descendant
is inspected, and an empty text moves on to the next ancestor. -/
def parentScan : List Node → String
  | [] => ""
  | anc :: rest =>
    match (collectElemsF (fun t _ => HEADING_TAGS.contains t) anc.childrenOf).head? with
    | some h =>
      let txt := _norm (Node.getText h)
      if txt = "" then parentScan rest else txt
    | none => parentScan rest

/-- parser.py `_find_subject_for_table`: up to 6 `previous_sibling` hops
looking for a heading with nonempty text, then up to 4 `parent` hops each
searching its first heading descendant; `""` when nothing is found. -/
def _find_subject_for_table (ctx : TableCtx) : String :=
  match (ctx.leftRev.take 6).findSome? headingText? with
  | some txt => txt
  | none => parentScan (ctx.ancestors.take 4)

/-! ### Student identity extraction -/

/-- Python `str.rstrip(":")`. -/
def rstripColon (s : String) : String :=
  String.mk ((s.toList.reverse.dropWhile (fun c => c = ':')).reverse)

/-- The row loop of `_extract_student_from_pupilinfo`: rows with at least
two cells whose first cell (colon-stripped, lowercased) is `name` or
`klasse` set the respective field, later rows overwriting earlier ones. -/
def pupilRows : List (List String) → String × String → String × String
  | [], acc => acc
  | r :: rs, acc =>
    match r with
    | k :: v :: _ =>
      let key := pyLower (pyStrip (rstripColon k))
      if key = "name" then pupilRows rs (v, acc.2)
      else if key = "klasse" then pupilRows rs (acc.1, v)
      else pupilRows rs acc
    | _ => pupilRows rs acc

/-- parser.py `_extract_student_from_pupilinfo`: the first
`div.pupilinfo`, inside it `table.t01` or else the first table, read via
`_table_rows` and the labeled-row scan. -/
def _extract_student_from_pupilinfo (doc : List Node) : String × String :=
  match (collectElemsF (fun t a => t = "div" && hasClass a "pupilinfo") doc).head? with
  | none => ("", "")
  | some d =>
    let t01 := (collectElemsF (fun t a => t = "table" && hasClass a "t01") d.childrenOf).head?
    let tb :=
      match t01 with
      | some x => some x
      | none => (collectElemsF (fun t _ => t = "table") d.childrenOf).head?
    match tb with
    | none => ("", "")
    | some table => pupilRows (_table_rows table) ("", "")

mutual

/-- One node of the CSS selection
`.panel-hint, #content h1, #content h2, #content h3` used by
`_extract_student_fallback`; `inContent` records whether some proper
ancestor has `id="content"`. -/
def fbSelN (inContent : Bool) : Node → List Node
  | .text _ => []
  | .elem t a cs =>
    let hit := hasClass a "panel-hint" ||
      ((t = "h1" || t = "h2" || t = "h3") && inContent)
    (if hit then [Node.elem t a cs] else []) ++
      fbSelF (inContent || idIs a "content") cs

/-- The CSS selection over a forest, document order. -/
def fbSelF (inContent : Bool) : List Node → List Node
  | [] => []
  | n :: ns => fbSelN inContent n ++ fbSelF inContent ns

end

/-- The uppercase class `[A-ZÄÖÜ]` of the defensive-name regex. -/
def isUpperName (c : Char) : Bool :=
  ('A' ≤ c && c ≤ 'Z') || c = 'Ä' || c = 'Ö' || c = 'Ü'

/-- The lowercase class `[a-zäöüß]` of the defensive-name regex. -/
def isLowerName (c : Char) : Bool :=
  ('a' ≤ c && c ≤ 'z') || c = 'ä' || c = 'ö' || c = 'ü' || c = 'ß'

/-- Python `\w` (word character), restricted to the ASCII and German
letters this parser's inputs use. -/
def isPyWordChar (c : Char) : Bool :=
  ('A' ≤ c && c ≤ 'Z') || ('a' ≤ c && c ≤ 'z') || ('0' ≤ c && c ≤ '9') ||
    c = '_' || isUpperName c || isLowerName c

/-- `[A-ZÄÖÜ][a-zäöüß]+` anchored at the start: the consumed word and the
rest (the lowercase run taken greedily; being maximal, it is the only
length the surrounding pattern can use). -/
def matchCapWord : List Char → Option (List Char × List Char)
  | [] => none
  | c :: rest =>
    if isUpperName c then
      let low := rest.takeWhile isLowerName
      if low.isEmpty then none else some (c :: low, rest.drop low.length)
    else none

/-- The repetitions of `(?:\s+[A-ZÄÖÜ][a-zäöüß]+)` taken greedily: for
each achievable repetition count 1..k, the cumulative consumed text and
the rest. The fuel is the input length; one repetition consumes at least
two characters, so the fuel never runs out before the scan does. -/
def nameRepsGo (fuel : Nat) (cs : List Char) : List (List Char × List Char) :=
  match fuel with
  | 0 => []
  | fuel' + 1 =>
    let ws := cs.takeWhile isPyWs
    if ws.isEmpty then []
    else
      match matchCapWord (cs.drop ws.length) with
      | none => []
      | some (w, rest) =>
        (ws ++ w, rest) ::
          (nameRepsGo fuel' rest).map (fun pr => (ws ++ w ++ pr.1, pr.2))

/-- `[A-ZÄÖÜ][a-zäöüß]+(?:\s+[A-ZÄÖÜ][a-zäöüß]+)+\b` anchored at the
start (the leading `\b` is checked by the caller). Greedy matching with
backtracking only at the trailing `\b`: if the boundary fails after the
last repetition the engine drops that repetition (after which a
whitespace character follows, so the boundary holds); inside a maximal
letter run no boundary exists, so no other backtracking can succeed. -/
def nameAt (cs : List Char) : Option (List Char) :=
  match matchCapWord cs with
  | none => none
  | some (w1, rest) =>
    let reps := nameRepsGo rest.length rest
    match reps.getLast? with
    | none => none
    | some lastRep =>
      let boundary :=
        match lastRep.2.head? with
        | none => true
        | some c => ¬ isPyWordChar c
      if boundary then some (w1 ++ lastRep.1)
      else
        match reps.getD (reps.length - 2) ([], []) with
        | pr => if 2 ≤ reps.length then some (w1 ++ pr.1) else none

/-- `re.search` of the defensive-name regex: leftmost match; the leading
`\b` holds when the previous character is absent or not a word
character. -/
def nameSearch : Option Char → List Char → Option String
  | _, [] => none
  | prev, c :: cs =>
    let bOk :=
      match prev with
      | none => true
      | some p => ¬ isPyWordChar p
    if bOk then
      match nameAt (c :: cs) with
      | some m => some (String.mk m)
      | none => nameSearch (some c) cs
    else nameSearch (some c) cs

/-- The token class `[A-Za-z0-9\-_/]` of the class-label regex. -/
def isClassTok (c : Char) : Bool :=
  ('A' ≤ c && c ≤ 'Z') || ('a' ≤ c && c ≤ 'z') || ('0' ≤ c && c ≤ '9') ||
    c = '-' || c = '_' || c = '/'

/-- `klasse[:\s]+([A-Za-z0-9\-_/]+)` (IGNORECASE) anchored at the start:
after the literal, at least one colon/whitespace character, then the
maximal nonempty token run (shortening the separator run cannot help,
since separator characters are not token characters). -/
def klasseAt (cs : List Char) : Option String :=
  match matchLitCI "klasse".toList cs with
  | none => none
  | some r =>
    let sep := r.takeWhile (fun c => c = ':' || isPyWs c)
    if sep.isEmpty then none
    else
      let tok := (r.drop sep.length).takeWhile isClassTok
      if tok.isEmpty then none else some (String.mk tok)

/-- `re.search` of the class-label regex: leftmost match. -/
def klasseSearch : List Char → Option String
  | [] => none
  | c :: cs =>
    match klasseAt (c :: cs) with
    | some m => some m
    | none => klasseSearch cs

/-- parser.py `_extract_student_fallback`: the selected hint containers'
normalized texts joined by spaces, scanned for a defensive capitalized
name and a `Klasse: <token>` label. -/
def _extract_student_fallback (doc : List Node) : String × String :=
  let info_text :=
    String.mk (joinSpace ((fbSelF false doc).map (fun x => _norm (Node.getText x))))
  let name :=
    match nameSearch none info_text.toList with
    | some m => m
    | none => ""
  let klasse :=
    match klasseSearch info_text.toList with
    | some m => m
    | none => ""
  (name, klasse)

/-! ### The parse facade -/

/-- The parsed result of one document (`parse`'s returned dict). -/
structure Snapshot where
  name : String
  klasse : String
  grades : List (String × List (List (String × String)))
  homework : List (List (String × String))
  remarks : List (List (String × String))
deriving Repr, DecidableEq

/-- `dict.setdefault(key, [])` on the insertion-ordered grades mapping. -/
def setdefaultEmpty (d : List (String × List (List (String × String))))
    (k : String) : List (String × List (List (String × String))) :=
  if d.any (fun p => p.1 = k) then d else d ++ [(k, [])]

/-- `grades_by_subject[key].append(entry)`. -/
def appendAtKey (d : List (String × List (List (String × String))))
    (k : String) (e : List (String × String)) :
    List (String × List (List (String × String))) :=
  d.map fun p => if p.1 = k then (p.1, p.2 ++ [e]) else p

/-- Grade classification: `"datum" in head and "zensur" in head`. -/
def isGradeHead (head : List String) : Bool :=
  head.contains "datum" && head.contains "zensur"

/-- Homework classification: `{"datum","fach","hausaufgaben"} ⊆ set(head)`. -/
def isHomeworkHead (head : List String) : Bool :=
  ["datum", "fach", "hausaufgaben"].all head.contains

/-- Remark classification: `{"datum","typ","stunde","bemerkung"} ⊆ set(head)`. -/
def isRemarkHead (head : List String) : Bool :=
  ["datum", "typ", "stunde", "bemerkung"].all head.contains

/-- `_find_subject_for_table(table) or "unbekannt"`. -/
def tableSubject (ctx : TableCtx) : String :=
  let s := _find_subject_for_table ctx
  if s = "" then "unbekannt" else s

/-- The resolved subject key of a grade table. -/
def tableKey (ctx : TableCtx) : String :=
  subject_key (tableSubject ctx)

/-- The mutable triple built by `parse`'s table loop. -/
structure GHR where
  grades : List (String × List (List (String × String)))
  homework : List (List (String × String))
  remarks : List (List (String × String))
deriving Repr, DecidableEq

/-- One iteration of `parse`'s `for table in soup.find_all("table")`
loop: skip rowless tables; classify by the lowercased header row
(grades first, then homework, then remarks); grade tables register their
subject key even with zero data rows. -/
def classifyStep (st : GHR) (ctx : TableCtx) : GHR :=
  match _table_rows ctx.node with
  | [] => st
  | head_raw :: dataRows =>
    let head := head_raw.map pyLower
    if isGradeHead head then
      let key := tableKey ctx
      let d := setdefaultEmpty st.grades key
      let d := dataRows.foldl (fun acc r => appendAtKey acc key (_row_to_entry head_raw r)) d
      { st with grades := d }
    else if isHomeworkHead head then
      { st with homework := st.homework ++ dataRows.map (_row_to_entry head_raw) }
    else if isRemarkHead head then
      { st with remarks := st.remarks ++ dataRows.map (_row_to_entry head_raw) }
    else st

/-- The soup root: the parent chain of every node ends at the document
object, whose `find` searches the whole tree. -/
def docRoot (doc : List Node) : Node :=
  .elem "[document]" [] doc

/-- `soup.find_all("table")` with navigation contexts, document order. -/
def docTables (doc : List Node) : List TableCtx :=
  tablesInF [docRoot doc] [] doc

/-- parser.py `parse`: student identity (primary extraction, fallback
only filling fields the primary left empty), then the classification
loop over all tables. -/
def parse (doc : List Node) : Snapshot :=
  let prim := _extract_student_from_pupilinfo doc
  let st :=
    if prim.1 ≠ "" && prim.2 ≠ "" then prim
    else
      let fb := _extract_student_fallback doc
      (if prim.1 = "" then fb.1 else prim.1, if prim.2 = "" then fb.2 else prim.2)
  let ghr := (docTables doc).foldl classifyStep ⟨[], [], []⟩
  ⟨st.1, st.2, ghr.grades, ghr.homework, ghr.remarks⟩

/-! ## Theorems -/

/-- C4: subject-key resolution is a pure deterministic function of the
heading text: equal headings give equal keys; `Mathematik ↦ ma` and
`Biologie ↦ bio` via the fixed dictionary; the unknown `Xylophonkunde`
slugs to `xyl`; and when the lowercased stripped heading misses the
dictionary and strips to an empty slug, the literal sentinel `fach` is
returned. -/
theorem subject_key_spec :
    (∀ s t : String, s = t → subject_key s = subject_key t) ∧
    subject_key "Mathematik" = "ma" ∧
    subject_key "Biologie" = "bio" ∧
    subject_key "Xylophonkunde" = "xyl" ∧
    (∀ s : String,
      SUBJECT_MAPPING.lookup (pyLower (pyStrip s)) = none →
      (pyLower (pyStrip s)).toList.filter isSlugChar = [] →
      subject_key s = "fach") := by
  refine ⟨fun s t h => by rw [h], by decide, by decide, by decide, fun s h1 h2 => ?_⟩
  unfold subject_key
  simp only [h1, h2]
  rfl

/-- Witness for C4: the hypothesised parts of `subject_key_spec`
instantiated at `"Sport"` (determinism) and at `"$$"`, whose lowercased
form is not in the dictionary and slugs to the empty string. -/
theorem subject_key_spec_witness :
    subject_key "Sport" = subject_key "Sport" ∧ subject_key "$$" = "fach" :=
  ⟨subject_key_spec.1 "Sport" "Sport" rfl,
   subject_key_spec.2.2.2.2 "$$" (by decide) (by decide)⟩

/-- C5: the average-grade computation counts only literal single digits 1–6
in the `Zensur` field: for values `["2", "3", "-", "1"]` the state is
`(2+3+1)/3 = 2.0` with the non-numeric entry ignored; for `["-", "-"]`
the state is `0` and `valid_count` is `0`. -/
theorem native_value_examples :
    native_value [[("Zensur","2")],[("Zensur","3")],[("Zensur","-")],[("Zensur","1")]] = 2 ∧
    native_value [[("Zensur","-")],[("Zensur","-")]] = 0 ∧
    valid_count [[("Zensur","-")],[("Zensur","-")]] = 0 := by
  refine ⟨?_, ?_, by decide⟩
  · have h : _numeric_grades_1_to_6
        [[("Zensur","2")],[("Zensur","3")],[("Zensur","-")],[("Zensur","1")]] = [2,3,1] := by
      decide
    rw [native_value, h]
    norm_num [pyRound2]
    decide
  · have h : _numeric_grades_1_to_6 [[("Zensur","-")],[("Zensur","-")]] = [] := by decide
    rw [native_value, h]
    simp

/-- C2: the authenticated fetch operation reports a distinct session-expired
condition for every response whose body matches the login-form detector;
that condition differs from returned data, from a connectivity error and
from a credential failure, so the caller can re-login instead of treating
it as permanent. (`async_fetch_data_html` is modelled from the spec: see
its doc comment.) -/
theorem fetch_data_session_expired :
    ∀ resp : HttpResp,
      statusOk resp.status = true →
      looks_like_login_form resp.body = true →
      async_fetch_data_html resp = .sessionExpired ∧
      (∀ h, FetchDataResult.sessionExpired ≠ FetchDataResult.data h) ∧
      FetchDataResult.sessionExpired ≠ FetchDataResult.cannotConnect ∧
      FetchDataResult.sessionExpired ≠ FetchDataResult.invalidAuth := by
  intro resp h1 h2
  refine ⟨?_, ?_, ?_, ?_⟩
  · simp [async_fetch_data_html, h1, h2]
  · intro h hc
    cases hc
  · intro hc
    cases hc
  · intro hc
    cases hc

/-- Witness for C2: a 200 response whose body is a password input form is
reported as session expiry. -/
theorem fetch_data_session_expired_witness :
    async_fetch_data_html ⟨200, "<input type=\"password\">"⟩ = .sessionExpired :=
  (fetch_data_session_expired ⟨200, "<input type=\"password\">"⟩ (by decide) (by decide)).1

/-- C7: the parser facade is deterministic: two invocations of `parse` on
the same document yield identical snapshots, field by field; the
embedding is a pure function of the document, with no clock input. -/
theorem parse_deterministic :
    ∀ d1 d2 : List Node, d1 = d2 →
      (parse d1).name = (parse d2).name ∧
      (parse d1).klasse = (parse d2).klasse ∧
      (parse d1).grades = (parse d2).grades ∧
      (parse d1).homework = (parse d2).homework ∧
      (parse d1).remarks = (parse d2).remarks := by
  intro d1 d2 h
  subst h
  exact ⟨rfl, rfl, rfl, rfl, rfl⟩

/-- A small sample document: a heading and one header-only grade table. -/
def demoDoc : List Node :=
  [.elem "h3" [] [.text "Mathematik"],
   .elem "table" [] [.elem "tr" [] [.elem "th" [] [.text "Datum"], .elem "th" [] [.text "Zensur"]]]]

/-- Witness for C7: `parse_deterministic` applied to the sample document
twice. -/
theorem parse_deterministic_witness :
    (parse demoDoc).grades = (parse demoDoc).grades :=
  (parse_deterministic demoDoc demoDoc rfl).2.2.1

/-- C9: a document with zero table elements parses to empty grades,
homework and remarks (`docTables` enumerates exactly the `table`-tagged
elements of the document). `parse` is a total function of the document —
the embedding returns a `Snapshot` for every input, so no exception is
raised. -/
theorem parse_no_tables_empty :
    ∀ doc : List Node, docTables doc = [] →
      (parse doc).grades = [] ∧ (parse doc).homework = [] ∧ (parse doc).remarks = [] := by
  intro doc h
  simp [parse, h]

/-- A document containing no table element at all. -/
def tablelessDoc : List Node :=
  [.elem "div" [] [.elem "p" [] [.text "kein Inhalt"]], .text "x"]

/-- Witness for C9: the table-free sample document parses to an empty
snapshot. -/
theorem parse_no_tables_empty_witness :
    (parse tablelessDoc).grades = [] ∧ (parse tablelessDoc).homework = [] ∧
      (parse tablelessDoc).remarks = [] :=
  parse_no_tables_empty tablelessDoc rfl

/-- The alternation search splits into the two single-pattern searches. -/
theorem loginFormSearch_eq (cs : List Char) :
    loginFormSearch cs = (searchFormAction cs || searchPasswordInput cs) := by
  induction cs with
  | nil => rfl
  | cons c cs ih =>
    simp only [loginFormSearch, searchFormAction, searchPasswordInput, loginFormAt, ih]
    cases matchTagAt "<form".toList "action=".toList "login.php".toList (c :: cs) <;>
      cases matchTagAt "<input".toList "type=".toList "password".toList (c :: cs) <;>
      cases searchFormAction cs <;> cases searchPasswordInput cs <;> rfl

/-- A match in a suffix is a match in the whole input. -/
theorem loginFormSearch_append_right (xs ys : List Char)
    (h : loginFormSearch ys = true) : loginFormSearch (xs ++ ys) = true := by
  induction xs with
  | nil => exact h
  | cons c cs ih => simp [loginFormSearch, ih]

/-- The literal `<input type="password">` matches the input alternative at
its first character, whatever follows. -/
theorem inputAt_concrete (post : List Char) :
    loginFormAt ('<' :: 'i' :: 'n' :: 'p' :: 'u' :: 't' :: ' ' :: 't' :: 'y' :: 'p' :: 'e'
      :: '=' :: '"' :: 'p' :: 'a' :: 's' :: 's' :: 'w' :: 'o' :: 'r' :: 'd' :: '"' :: '>'
      :: post) = true := by
  simp [loginFormAt, matchTagAt, matchLitCI, ciEq, nonGtTails, matchAttrTail, optQuote, hasGt]

/-- Any input containing the literal `<input type="password">` is matched. -/
theorem loginFormSearch_concrete_mid (us vs : List Char) :
    loginFormSearch (us ++ ('<' :: 'i' :: 'n' :: 'p' :: 'u' :: 't' :: ' ' :: 't' :: 'y'
      :: 'p' :: 'e' :: '=' :: '"' :: 'p' :: 'a' :: 's' :: 's' :: 'w' :: 'o' :: 'r' :: 'd'
      :: '"' :: '>' :: vs)) = true := by
  apply loginFormSearch_append_right
  have h1 := inputAt_concrete vs
  simp [loginFormSearch, h1]

/-- String-level form of `loginFormSearch_concrete_mid`. -/
theorem looks_append_concrete (pre post : String) :
    looks_like_login_form (pre ++ "<input type=\"password\">" ++ post) = true := by
  show loginFormSearch (pre ++ "<input type=\"password\">" ++ post).data = true
  rw [String.data_append, String.data_append]
  have hlit : "<input type=\"password\">".data =
      '<' :: 'i' :: 'n' :: 'p' :: 'u' :: 't' :: ' ' :: 't' :: 'y' :: 'p' :: 'e'
        :: '=' :: '"' :: 'p' :: 'a' :: 's' :: 's' :: 'w' :: 'o' :: 'r' :: 'd' :: '"' :: '>'
        :: [] := by decide
  rw [hlit, List.append_assoc]
  simp only [List.cons_append, List.nil_append]
  exact loginFormSearch_concrete_mid pre.data post.data

/-- C6: the login-form detector returns true for every body containing an
`<input type="password">` element, and equals the disjunction of the
password-input search and the `login.php` form-action search — hence it
returns false for every body containing neither (both single-pattern
searches false). -/
theorem login_form_detector_spec :
    (∀ pre post : String,
      looks_like_login_form (pre ++ "<input type=\"password\">" ++ post) = true) ∧
    (∀ html : String,
      looks_like_login_form html = (hasLoginFormAction html || hasPasswordInput html)) :=
  ⟨looks_append_concrete, fun html => loginFormSearch_eq html.toList⟩

/-- Assigning a key absent from the dict appends the pair at the end. -/
theorem pyDictSet_not_mem (d : List (String × String)) (k v : String)
    (h : k ∉ d.map Prod.fst) : pyDictSet d k v = d ++ [(k, v)] := by
  induction d with
  | nil => rfl
  | cons p rest ih =>
    obtain ⟨k0, v0⟩ := p
    simp only [List.map_cons, List.mem_cons] at h
    push_neg at h
    have hne : ¬ k0 = k := fun hh => h.1 hh.symm
    simp [pyDictSet, hne, ih h.2]

/-- After an assignment, the assigned key reads back the new value. -/
theorem pyDictSet_lookup_self (d : List (String × String)) (k v : String) :
    (pyDictSet d k v).lookup k = some v := by
  induction d with
  | nil => simp [pyDictSet, List.lookup]
  | cons p rest ih =>
    obtain ⟨k0, v0⟩ := p
    by_cases h : k0 = k
    · subst h
      simp [pyDictSet, List.lookup]
    · have hb : (k == k0) = false := beq_eq_false_iff_ne.2 (fun hh => h hh.symm)
      simp [pyDictSet, h, List.lookup, hb, ih]

/-- An assignment leaves every other key's value unchanged. -/
theorem pyDictSet_lookup_ne (d : List (String × String)) (k v k' : String)
    (h : k' ≠ k) : (pyDictSet d k v).lookup k' = d.lookup k' := by
  have hb : (k' == k) = false := beq_eq_false_iff_ne.2 h
  induction d with
  | nil => simp [pyDictSet, List.lookup, hb]
  | cons p rest ih =>
    obtain ⟨k0, v0⟩ := p
    by_cases h0 : k0 = k
    · subst h0
      simp [pyDictSet, List.lookup, hb]
    · simp [pyDictSet, h0, List.lookup, ih]

/-- The header loop appends one key per header, in order, when the
normalized headers are distinct and absent from the accumulator. -/
theorem rowToEntryGo_keys (values : List String) :
    ∀ (hs : List String) (i : Nat) (acc : List (String × String)),
      (∀ h ∈ hs, _norm h ∉ acc.map Prod.fst) → (hs.map _norm).Nodup →
      (rowToEntryGo values i hs acc).map Prod.fst = acc.map Prod.fst ++ hs.map _norm := by
  intro hs
  induction hs with
  | nil => intro i acc _ _; simp [rowToEntryGo]
  | cons h hs' ih =>
    intro i acc hdisj hnd
    simp only [List.map_cons, List.nodup_cons] at hnd
    rw [rowToEntryGo, pyDictSet_not_mem _ _ _ (hdisj h (by simp))]
    rw [ih (i + 1) _ ?_ hnd.2]
    · simp
    · intro x hx hmem
      rw [List.map_append] at hmem
      rcases List.mem_append.1 hmem with hmem | hmem
      · exact hdisj x (by simp [hx]) hmem
      · simp only [List.map_cons, List.map_nil, List.mem_singleton] at hmem
        exact hnd.1 (hmem ▸ List.mem_map_of_mem _ hx)

/-- The header loop never touches a key outside its header list. -/
theorem rowToEntryGo_lookup_frozen (values : List String) :
    ∀ (hs : List String) (i : Nat) (acc : List (String × String)) (k : String),
      k ∉ hs.map _norm →
      (rowToEntryGo values i hs acc).lookup k = acc.lookup k := by
  intro hs
  induction hs with
  | nil => intro i acc k _; rfl
  | cons h hs' ih =>
    intro i acc k hk
    simp only [List.map_cons, List.mem_cons] at hk
    push_neg at hk
    rw [rowToEntryGo, ih (i + 1) _ _ hk.2, pyDictSet_lookup_ne _ _ _ _ hk.1]

/-- With distinct normalized headers, the `j`-th header's key reads back
the normalized `(i+j)`-th value (the empty string past the row's end). -/
theorem rowToEntryGo_lookup (values : List String) :
    ∀ (hs : List String) (i : Nat) (acc : List (String × String)),
      (hs.map _norm).Nodup →
      ∀ (j : Nat) (hj : j < hs.length),
        (rowToEntryGo values i hs acc).lookup (_norm (hs.get ⟨j, hj⟩)) =
          some (_norm (values.getD (i + j) "")) := by
  intro hs
  induction hs with
  | nil => intro i acc _ j hj; exact absurd hj (by simp)
  | cons h hs' ih =>
    intro i acc hnd j hj
    simp only [List.map_cons, List.nodup_cons] at hnd
    match j with
    | 0 =>
      rw [rowToEntryGo]
      have hfroz := rowToEntryGo_lookup_frozen values hs' (i + 1)
        (pyDictSet acc (_norm h) (_norm (values.getD i ""))) (_norm h) hnd.1
      show (rowToEntryGo values (i + 1) hs'
          (pyDictSet acc (_norm h) (_norm (values.getD i "")))).lookup (_norm h) = _
      rw [hfroz, pyDictSet_lookup_self]
      simp
    | j' + 1 =>
      rw [rowToEntryGo]
      have hj' : j' < hs'.length := by
        simp only [List.length_cons] at hj
        omega
      have hrec := ih (i + 1) (pyDictSet acc (_norm h) (_norm (values.getD i ""))) hnd.2 j' hj'
      show (rowToEntryGo values (i + 1) hs'
          (pyDictSet acc (_norm h) (_norm (values.getD i "")))).lookup
            (_norm (hs'.get ⟨j', hj'⟩)) = some (_norm (values.getD (i + (j' + 1)) ""))
      have harith : i + (j' + 1) = i + 1 + j' := by omega
      rw [harith]
      exact hrec

/-- C10: for distinct normalized headers, a data row's record has exactly
the normalized header texts as its key list in header order (cells beyond
the header length contribute no key), and the key of header `i` holds the
normalized `i`-th cell — the empty string when the row has fewer cells. -/
theorem row_to_entry_spec :
    ∀ (headers values : List String),
      (headers.map _norm).Nodup →
      ((_row_to_entry headers values).map Prod.fst = headers.map _norm ∧
       (∀ (i : Nat) (hi : i < headers.length),
         (_row_to_entry headers values).lookup (_norm (headers.get ⟨i, hi⟩)) =
           some (_norm (values.getD i ""))) ∧
       (∀ (i : Nat) (hi : i < headers.length), values.length ≤ i →
         (_row_to_entry headers values).lookup (_norm (headers.get ⟨i, hi⟩)) = some "")) := by
  intro headers values hnd
  refine ⟨?_, ?_, ?_⟩
  · have h := rowToEntryGo_keys values headers 0 [] (by simp) hnd
    simpa [_row_to_entry] using h
  · intro i hi
    have h := rowToEntryGo_lookup values headers 0 [] hnd i hi
    simpa [_row_to_entry] using h
  · intro i hi hlen
    have h := rowToEntryGo_lookup values headers 0 [] hnd i hi
    simp only [Nat.zero_add] at h
    rw [List.getD_eq_default _ _ hlen] at h
    simpa [_row_to_entry] using h

/-- Witness for C10: a three-header row with one cell keeps all three
keys, and the second key (no matching cell) holds the empty string. -/
theorem row_to_entry_spec_witness :
    (_row_to_entry ["Datum", "Zensur", "Extra"] ["01.02."]).map Prod.fst =
      ["Datum", "Zensur", "Extra"].map _norm ∧
    (_row_to_entry ["Datum", "Zensur", "Extra"] ["01.02."]).lookup "Zensur" = some "" := by
  have h := row_to_entry_spec ["Datum", "Zensur", "Extra"] ["01.02."] (by decide)
  exact ⟨h.1, h.2.2 1 (by decide) (by decide)⟩

/-- C8: when the root GET returns 200, the login POST returns 302, the
first data fetch still shows the login form and the second (after one
primary backoff step) returns a valid body, the login operation returns
that body having consumed exactly the four scripted responses — the
empty remaining trace shows no fallback request was ever issued. -/
theorem login_primary_retry_no_fallback :
    ∀ (b1 b2 lf db : String),
      looks_like_login_form lf = true →
      looks_like_login_form db = false →
      async_login_and_fetch_html [⟨200, b1⟩, ⟨302, b2⟩, ⟨200, lf⟩, ⟨200, db⟩] =
        .ok (db, []) := by
  intro b1 b2 lf db hlf hdb
  simp [async_login_and_fetch_html, login_once, takeResp, ApiResult.andThen,
    statusOk, _fetch_after_login_with_retries, fetch_after_login_once,
    RETRY_DELAYS_PRIMARY, retryLoop, hlf, hdb]

/-- Witness for C8: a concrete four-response run with one retry. -/
theorem login_primary_retry_no_fallback_witness :
    async_login_and_fetch_html
      [⟨200, "start"⟩, ⟨302, "redirect"⟩, ⟨200, "<input type=\"password\">"⟩,
       ⟨200, "<html>Daten</html>"⟩] = .ok ("<html>Daten</html>", []) :=
  login_primary_retry_no_fallback "start" "redirect" "<input type=\"password\">"
    "<html>Daten</html>" (by decide) (by decide)

/-- C1: when the initial fetch and every primary retry, and then the whole
fallback login cycle with every fallback retry, all return 200 bodies
that match the login-form detector, the operation raises `InvalidAuth` —
a constructor distinct from a returned body (`ok`) and from the
connectivity error (`cannotConnect`) — so the login page is never
returned as data. The 13 scripted responses are: root GET and login POST,
the four primary-schedule fetches, the fallback root GET and login POST,
and the five fallback-schedule fetches. -/
theorem login_all_login_forms_invalid_auth :
    ∀ (r1 r2 r3 r4 f0 f1 f2 f3 g0 g1 g2 g3 g4 : HttpResp),
      statusOk r1.status = true → statusOk r2.status = true →
      statusOk r3.status = true → statusOk r4.status = true →
      f0.status = 200 → looks_like_login_form f0.body = true →
      f1.status = 200 → looks_like_login_form f1.body = true →
      f2.status = 200 → looks_like_login_form f2.body = true →
      f3.status = 200 → looks_like_login_form f3.body = true →
      g0.status = 200 → looks_like_login_form g0.body = true →
      g1.status = 200 → looks_like_login_form g1.body = true →
      g2.status = 200 → looks_like_login_form g2.body = true →
      g3.status = 200 → looks_like_login_form g3.body = true →
      g4.status = 200 → looks_like_login_form g4.body = true →
      (async_login_and_fetch_html
          [r1, r2, f0, f1, f2, f3, r3, r4, g0, g1, g2, g3, g4] = .invalidAuth ∧
       (∀ (html : String) (tr : Trace),
          (ApiResult.invalidAuth : ApiResult (String × Trace)) ≠ .ok (html, tr)) ∧
       (ApiResult.invalidAuth : ApiResult (String × Trace)) ≠ .cannotConnect) := by
  intro r1 r2 r3 r4 f0 f1 f2 f3 g0 g1 g2 g3 g4 hr1 hr2 hr3 hr4
    hf0s hf0 hf1s hf1 hf2s hf2 hf3s hf3 hg0s hg0 hg1s hg1 hg2s hg2 hg3s hg3 hg4s hg4
  refine ⟨?_, ?_, ?_⟩
  · rw [statusOk] at hr1 hr2 hr3 hr4
    rcases Bool.or_eq_true_iff.1 hr1 with h1 | h1 <;>
      rcases Bool.or_eq_true_iff.1 hr2 with h2 | h2 <;>
      rcases Bool.or_eq_true_iff.1 hr3 with h3 | h3 <;>
      rcases Bool.or_eq_true_iff.1 hr4 with h4 | h4 <;>
      rw [decide_eq_true_eq] at h1 h2 h3 h4 <;>
      simp [async_login_and_fetch_html, login_once, takeResp, ApiResult.andThen,
        statusOk, _fetch_after_login_with_retries, fetch_after_login_once,
        RETRY_DELAYS_PRIMARY, RETRY_DELAYS_FALLBACK, retryLoop,
        h1, h2, h3, h4, hf0s, hf0, hf1s, hf1, hf2s, hf2, hf3s, hf3,
        hg0s, hg0, hg1s, hg1, hg2s, hg2, hg3s, hg3, hg4s, hg4]
  · intro html tr hc
    cases hc
  · intro hc
    cases hc

/-- The login-form body used by the C1 witness run. -/
def loginFormBody : HttpResp :=
  ⟨200, "<input type=\"password\">"⟩

/-- Witness for C1: a concrete thirteen-response run in which every data
fetch shows the login form ends in `InvalidAuth`. -/
theorem login_all_login_forms_invalid_auth_witness :
    async_login_and_fetch_html
      [⟨200, "start"⟩, ⟨302, "redirect"⟩, loginFormBody, loginFormBody, loginFormBody,
       loginFormBody, ⟨200, "start"⟩, ⟨302, "redirect"⟩, loginFormBody, loginFormBody,
       loginFormBody, loginFormBody, loginFormBody] = .invalidAuth :=
  (login_all_login_forms_invalid_auth ⟨200, "start"⟩ ⟨302, "redirect"⟩
    ⟨200, "start"⟩ ⟨302, "redirect"⟩ loginFormBody loginFormBody loginFormBody
    loginFormBody loginFormBody loginFormBody loginFormBody loginFormBody loginFormBody
    (by decide) (by decide) (by decide) (by decide)
    (by decide) (by decide) (by decide) (by decide) (by decide) (by decide)
    (by decide) (by decide) (by decide) (by decide) (by decide) (by decide)
    (by decide) (by decide) (by decide) (by decide) (by decide) (by decide)).1

/-! ### Grade-table registration (C3) -/

/-- The table is classified as a grade table: it has rows and its first
row's lowercased cells contain `datum` and `zensur`. -/
def hipGradeTable (ctx : TableCtx) : Bool :=
  match _table_rows ctx.node with
  | [] => false
  | head :: _ => isGradeHead (head.map pyLower)

/-- The table has no data rows (at most the header row). -/
def hipNoDataRows (ctx : TableCtx) : Bool :=
  (_table_rows ctx.node).length ≤ 1

/-- The grades mapping of a parse is the classification fold's grades. -/
theorem parse_grades_eq (doc : List Node) :
    (parse doc).grades = ((docTables doc).foldl classifyStep ⟨[], [], []⟩).grades := rfl

/-- Lookup over an appended association list falls through on a miss. -/
theorem lookup_append {β : Type} (d l2 : List (String × β)) (k : String) :
    (d ++ l2).lookup k =
      (match d.lookup k with
       | some v => some v
       | none => l2.lookup k) := by
  induction d with
  | nil => simp [List.lookup]
  | cons p rest ih =>
    obtain ⟨k0, v0⟩ := p
    by_cases h : k == k0
    · simp [List.lookup, h]
    · simp only [Bool.not_eq_true] at h
      simp [List.lookup, h, ih]

/-- A lookup misses exactly when no pair carries the key. -/
theorem lookup_none_iff_any {β : Type} (d : List (String × β)) (k : String) :
    d.lookup k = none ↔ d.any (fun p => decide (p.1 = k)) = false := by
  induction d with
  | nil => simp [List.lookup]
  | cons p rest ih =>
    obtain ⟨k0, v0⟩ := p
    by_cases h : k == k0
    · have he : k = k0 := by simpa using h
      subst he
      simp [List.lookup]
    · simp only [Bool.not_eq_true] at h
      have hne : ¬ (k0 = k) := by
        intro hh
        subst hh
        simp at h
      simp [List.lookup, h, ih, hne]

/-- Appending a grade entry changes no key. -/
theorem appendAtKey_keys (d : List (String × List (List (String × String))))
    (k : String) (e : List (String × String)) :
    (appendAtKey d k e).map Prod.fst = d.map Prod.fst := by
  induction d with
  | nil => rfl
  | cons p rest ih =>
    by_cases h : p.1 = k <;> simp [appendAtKey, h] <;>
      simpa [appendAtKey] using ih

/-- Appending a grade entry leaves other keys' values unchanged. -/
theorem appendAtKey_lookup_ne (d : List (String × List (List (String × String))))
    (k : String) (e : List (String × String)) (k' : String) (h : k' ≠ k) :
    (appendAtKey d k e).lookup k' = d.lookup k' := by
  induction d with
  | nil => rfl
  | cons p rest ih =>
    obtain ⟨k0, v0⟩ := p
    have hexp : appendAtKey ((k0, v0) :: rest) k e =
        (if k0 = k then (k0, v0 ++ [e]) else (k0, v0)) :: appendAtKey rest k e := rfl
    rw [hexp]
    by_cases h0 : k0 = k
    · have hb : (k' == k0) = false := beq_eq_false_iff_ne.2 (h0 ▸ h)
      rw [if_pos h0]
      simp [List.lookup, hb, ih]
    · rw [if_neg h0]
      by_cases hb : (k' == k0) = true
      · simp [List.lookup, hb]
      · simp only [Bool.not_eq_true] at hb
        simp [List.lookup, hb, ih]

/-- The data-row fold of the grade branch changes no key. -/
theorem gradeFold_keys (rows : List (List String)) (hr : List String) (k : String) :
    ∀ d : List (String × List (List (String × String))),
      ((rows.foldl (fun acc r => appendAtKey acc k (_row_to_entry hr r)) d)).map Prod.fst =
        d.map Prod.fst := by
  induction rows with
  | nil => intro d; rfl
  | cons r rest ih =>
    intro d
    simp only [List.foldl_cons]
    rw [ih, appendAtKey_keys]

/-- The data-row fold leaves other keys' values unchanged. -/
theorem gradeFold_lookup_ne (rows : List (List String)) (hr : List String) (k k' : String)
    (h : k' ≠ k) :
    ∀ d : List (String × List (List (String × String))),
      ((rows.foldl (fun acc r => appendAtKey acc k (_row_to_entry hr r)) d)).lookup k' =
        d.lookup k' := by
  induction rows with
  | nil => intro d; rfl
  | cons r rest ih =>
    intro d
    simp only [List.foldl_cons]
    rw [ih, appendAtKey_lookup_ne _ _ _ _ h]

/-- `setdefault` keeps every existing key. -/
theorem setdefaultEmpty_keys_mem (d : List (String × List (List (String × String))))
    (k k' : String) (h : k' ∈ d.map Prod.fst) :
    k' ∈ (setdefaultEmpty d k).map Prod.fst := by
  unfold setdefaultEmpty
  by_cases ha : d.any (fun p => decide (p.1 = k)) = true
  · simpa [ha] using h
  · simp only [Bool.not_eq_true] at ha
    simp only [ha, Bool.false_eq_true, if_false]
    rw [List.map_append]
    exact List.mem_append_left _ h

/-- `setdefault` makes its own key present. -/
theorem setdefaultEmpty_self_mem (d : List (String × List (List (String × String))))
    (k : String) : k ∈ (setdefaultEmpty d k).map Prod.fst := by
  unfold setdefaultEmpty
  by_cases ha : d.any (fun p => decide (p.1 = k)) = true
  · simp only [ha, if_true]
    rcases List.any_eq_true.1 ha with ⟨p, hp, hpk⟩
    have : p.1 = k := of_decide_eq_true hpk
    exact this ▸ List.mem_map_of_mem _ hp
  · simp only [Bool.not_eq_true] at ha
    simp [ha, List.map_append]

/-- `setdefault` leaves other keys' values unchanged. -/
theorem setdefaultEmpty_lookup_ne (d : List (String × List (List (String × String))))
    (k k' : String) (h : k' ≠ k) :
    (setdefaultEmpty d k).lookup k' = d.lookup k' := by
  unfold setdefaultEmpty
  by_cases ha : d.any (fun p => decide (p.1 = k)) = true
  · simp [ha]
  · simp only [Bool.not_eq_true] at ha
    simp only [ha, Bool.false_eq_true, if_false]
    rw [lookup_append]
    cases hl : d.lookup k' with
    | some v => rfl
    | none => simp [List.lookup, beq_eq_false_iff_ne.2 h]

/-- `setdefault` on an absent or empty key reads back the empty list. -/
theorem setdefaultEmpty_lookup_self (d : List (String × List (List (String × String))))
    (k : String) (hinv : d.lookup k = none ∨ d.lookup k = some []) :
    (setdefaultEmpty d k).lookup k = some [] := by
  unfold setdefaultEmpty
  rcases hinv with hnone | hsome
  · have ha := (lookup_none_iff_any d k).1 hnone
    simp only [ha, Bool.false_eq_true, if_false]
    rw [lookup_append, hnone]
    simp [List.lookup]
  · by_cases ha : d.any (fun p => decide (p.1 = k)) = true
    · simp [ha, hsome]
    · simp only [Bool.not_eq_true] at ha
      have := (lookup_none_iff_any d k).2 ha
      rw [this] at hsome
      cases hsome

/-- One classification step never removes a grades key. -/
theorem classifyStep_keys_mono (st : GHR) (ctx : TableCtx) (k : String)
    (h : k ∈ st.grades.map Prod.fst) : k ∈ (classifyStep st ctx).grades.map Prod.fst := by
  cases hrows : _table_rows ctx.node with
  | nil => simpa [classifyStep, hrows] using h
  | cons head data =>
    by_cases hg : isGradeHead (head.map pyLower) = true
    · simp only [classifyStep, hrows, hg, if_true]
      rw [gradeFold_keys]
      exact setdefaultEmpty_keys_mem _ _ _ h
    · simp only [Bool.not_eq_true] at hg
      by_cases hh : isHomeworkHead (head.map pyLower) = true <;>
        by_cases hr : isRemarkHead (head.map pyLower) = true <;>
        simpa [classifyStep, hrows, hg, hh, hr] using h

/-- A grade table's key is registered by its classification step. -/
theorem classifyStep_registers (st : GHR) (ctx : TableCtx)
    (hg : hipGradeTable ctx = true) :
    tableKey ctx ∈ (classifyStep st ctx).grades.map Prod.fst := by
  cases hrows : _table_rows ctx.node with
  | nil => simp [hipGradeTable, hrows] at hg
  | cons head data =>
    simp only [hipGradeTable, hrows] at hg
    simp only [classifyStep, hrows, hg, if_true]
    rw [gradeFold_keys]
    exact setdefaultEmpty_self_mem _ _

/-- A step of a non-grade table, or of a grade table with another key,
leaves a key's grade list unchanged. -/
theorem classifyStep_lookup_preserve (st : GHR) (ctx : TableCtx) (k : String)
    (h : hipGradeTable ctx = false ∨ tableKey ctx ≠ k) :
    (classifyStep st ctx).grades.lookup k = st.grades.lookup k := by
  cases hrows : _table_rows ctx.node with
  | nil => simp [classifyStep, hrows]
  | cons head data =>
    by_cases hg : isGradeHead (head.map pyLower) = true
    · have hk : tableKey ctx ≠ k := by
        rcases h with hg' | hk'
        · simp only [hipGradeTable, hrows, hg] at hg'
          cases hg'
        · exact hk'
      simp only [classifyStep, hrows, hg, if_true]
      rw [gradeFold_lookup_ne _ _ _ _ (fun hh => hk hh.symm),
        setdefaultEmpty_lookup_ne _ _ _ (fun hh => hk hh.symm)]
    · simp only [Bool.not_eq_true] at hg
      by_cases hh : isHomeworkHead (head.map pyLower) = true <;>
        by_cases hr : isRemarkHead (head.map pyLower) = true <;>
        simp [classifyStep, hrows, hg, hh, hr]

/-- A grade table with no data rows leaves its key mapped to the empty
list when it was absent or empty before. -/
theorem classifyStep_at_key (st : GHR) (ctx : TableCtx) (k : String)
    (hg : hipGradeTable ctx = true) (hk : tableKey ctx = k)
    (hnd : hipNoDataRows ctx = true)
    (hinv : st.grades.lookup k = none ∨ st.grades.lookup k = some []) :
    (classifyStep st ctx).grades.lookup k = some [] := by
  cases hrows : _table_rows ctx.node with
  | nil => simp [hipGradeTable, hrows] at hg
  | cons head data =>
    have hlen : (head :: data).length ≤ 1 := by
      have := hnd
      simp only [hipNoDataRows, hrows] at this
      exact of_decide_eq_true this
    have hdata : data = [] := by
      cases data with
      | nil => rfl
      | cons x xs => simp at hlen
    simp only [hipGradeTable, hrows] at hg
    subst hk
    subst hdata
    simp only [classifyStep, hrows, hg, if_true, List.foldl_nil]
    exact setdefaultEmpty_lookup_self _ _ hinv

/-- The classification fold never removes a grades key. -/
theorem foldl_keys_mono (l : List TableCtx) :
    ∀ (st : GHR) (k : String), k ∈ st.grades.map Prod.fst →
      k ∈ ((l.foldl classifyStep st).grades).map Prod.fst := by
  induction l with
  | nil => intro st k h; exact h
  | cons c l' ih =>
    intro st k h
    exact ih _ _ (classifyStep_keys_mono st c k h)

/-- Every grade table in the fold's input gets its key registered. -/
theorem foldl_registers (l : List TableCtx) :
    ∀ (st : GHR) (ctx : TableCtx), ctx ∈ l → hipGradeTable ctx = true →
      tableKey ctx ∈ ((l.foldl classifyStep st).grades).map Prod.fst := by
  induction l with
  | nil => intro st ctx h; cases h
  | cons c l' ih =>
    intro st ctx hmem hg
    rcases List.mem_cons.1 hmem with hc | hc
    · subst hc
      exact foldl_keys_mono l' _ _ (classifyStep_registers st ctx hg)
    · exact ih _ _ hc hg

/-- When every grade table with key `k` is data-row-free, a key mapped to
the empty list stays mapped to the empty list through the fold. -/
theorem foldl_preserve_empty (l : List TableCtx) :
    ∀ (st : GHR) (k : String),
      (∀ u ∈ l, hipGradeTable u = true → tableKey u = k → hipNoDataRows u = true) →
      st.grades.lookup k = some [] →
      ((l.foldl classifyStep st).grades).lookup k = some [] := by
  induction l with
  | nil => intro st k _ h; exact h
  | cons c l' ih =>
    intro st k hall h
    have hall' : ∀ u ∈ l', hipGradeTable u = true → tableKey u = k → hipNoDataRows u = true :=
      fun u hu => hall u (List.mem_cons_of_mem _ hu)
    by_cases hA : hipGradeTable c = true
    · by_cases hB : tableKey c = k
      · exact ih _ _ hall'
          (classifyStep_at_key st c k hA hB (hall c (by simp) hA hB) (Or.inr h))
      · exact ih _ _ hall' (by rw [classifyStep_lookup_preserve st c k (Or.inr hB)]; exact h)
    · simp only [Bool.not_eq_true] at hA
      exact ih _ _ hall' (by rw [classifyStep_lookup_preserve st c k (Or.inl hA)]; exact h)

/-- When every grade table with key `k` is data-row-free and at least one
such table occurs, the fold ends with `k` mapped to the empty list. -/
theorem foldl_establish (l : List TableCtx) :
    ∀ (st : GHR) (k : String),
      (∀ u ∈ l, hipGradeTable u = true → tableKey u = k → hipNoDataRows u = true) →
      (st.grades.lookup k = none ∨ st.grades.lookup k = some []) →
      (∃ u ∈ l, hipGradeTable u = true ∧ tableKey u = k) →
      ((l.foldl classifyStep st).grades).lookup k = some [] := by
  induction l with
  | nil =>
    intro st k _ _ hex
    rcases hex with ⟨u, hu, _⟩
    cases hu
  | cons c l' ih =>
    intro st k hall hinv hex
    have hall' : ∀ u ∈ l', hipGradeTable u = true → tableKey u = k → hipNoDataRows u = true :=
      fun u hu => hall u (List.mem_cons_of_mem _ hu)
    by_cases hA : hipGradeTable c = true
    · by_cases hB : tableKey c = k
      · exact foldl_preserve_empty l' _ _ hall'
          (classifyStep_at_key st c k hA hB (hall c (by simp) hA hB) hinv)
      · rcases hex with ⟨u, hu, hug, huk⟩
        rcases List.mem_cons.1 hu with hc | hc
        · exact absurd (hc ▸ huk) hB
        · exact ih _ _ hall'
            (by rw [classifyStep_lookup_preserve st c k (Or.inr hB)]; exact hinv)
            ⟨u, hc, hug, huk⟩
    · simp only [Bool.not_eq_true] at hA
      rcases hex with ⟨u, hu, hug, huk⟩
      rcases List.mem_cons.1 hu with hc | hc
      · rw [hc] at hug
        rw [hug] at hA
        cases hA
      · exact ih _ _ hall'
          (by rw [classifyStep_lookup_preserve st c k (Or.inl hA)]; exact hinv)
          ⟨u, hc, hug, huk⟩

/-- C3 (amended): every grade-classified table with no data rows has its
resolved subject key present in the grades mapping — the subject is never
omitted — and, provided every grade-classified table of the document that
resolves to the same key also has no data rows, that key is mapped to the
empty sequence. -/
theorem empty_grade_table_registers_key :
    ∀ (doc : List Node) (i : Nat) (hi : i < (docTables doc).length),
      hipGradeTable ((docTables doc).get ⟨i, hi⟩) = true →
      hipNoDataRows ((docTables doc).get ⟨i, hi⟩) = true →
      (tableKey ((docTables doc).get ⟨i, hi⟩) ∈ (parse doc).grades.map Prod.fst ∧
       ((∀ u ∈ docTables doc,
           hipGradeTable u = true →
           tableKey u = tableKey ((docTables doc).get ⟨i, hi⟩) →
           hipNoDataRows u = true) →
         (parse doc).grades.lookup (tableKey ((docTables doc).get ⟨i, hi⟩)) = some [])) := by
  intro doc i hi hg hnd
  rw [parse_grades_eq]
  constructor
  · exact foldl_registers _ _ _ (List.get_mem _ _ _) hg
  · intro hall
    exact foldl_establish _ _ _ hall (Or.inl rfl) ⟨_, List.get_mem _ _ _, hg, rfl⟩

/-- Witness for C3: in the sample document the empty `Mathematik` table
registers `ma` mapped to the empty list. -/
theorem empty_grade_table_registers_key_witness :
    "ma" ∈ (parse demoDoc).grades.map Prod.fst ∧
    (parse demoDoc).grades.lookup "ma" = some [] := by
  have h0 : 0 < (docTables demoDoc).length := by decide
  have h := empty_grade_table_registers_key demoDoc 0 h0 rfl rfl
  have hk : tableKey ((docTables demoDoc).get ⟨0, h0⟩) = "ma" := rfl
  rw [hk] at h
  exact ⟨h.1, h.2 (by decide)⟩

/-- Two heading-less grade tables resolving to the same key `unb`: the
first has no data rows, the second has one. -/
def cexDoc : List Node :=
  [Node.elem "table" []
     [Node.elem "tr" [] [Node.elem "th" [] [Node.text "Datum"], Node.elem "th" [] [Node.text "Zensur"]]],
   Node.elem "table" []
     [Node.elem "tr" [] [Node.elem "th" [] [Node.text "Datum"], Node.elem "th" [] [Node.text "Zensur"]],
      Node.elem "tr" [] [Node.elem "td" [] [Node.text "03.03."], Node.elem "td" [] [Node.text "2"]]]]

/-- The first (data-row-free) grade table of `cexDoc`. -/
def cexCtx : TableCtx := (docTables cexDoc).getD 0 ⟨Node.text "", [], []⟩

/-- C3 counterexample: `cexDoc` contains a grade-classified table with no
data rows, yet its resolved subject key is not mapped to an empty
sequence — a second table with the same resolved key contributes a data
row, so the claim as stated fails. -/
theorem grade_table_empty_key_nonempty_cex :
    hipGradeTable cexCtx = true ∧ hipNoDataRows cexCtx = true ∧
    (parse cexDoc).grades.lookup (tableKey cexCtx) ≠ some [] := by
  refine ⟨by decide, by decide, by decide⟩

end HomeInfoPoint
